import Mathlib

/-!
Shallow embedding of `src/index.js` (new-erc20-parser): the ingestion and
deduplication pipeline.  The two ingestion paths are modelled as pure state
transformers over a `SystemState` that holds the two persisted files and a
trace of external effects (Telegram sends and file writes) in the order the
source code performs them.

Modelling conventions:
- The structured file `addresses.json` is `Option (List ContractEntry)`:
  `none` when the file does not exist, `some l` for its parsed array.
- The plain file `addresses.txt` is `Option (List String)`: the file content
  is always a sequence of newline-terminated address lines, so it is
  modelled as its list of lines; the source concatenation
  `addressesToWrite.join(newline) + newline + existingTxtContent` becomes
  `addressesToWrite ++ existingLines`.
- `ethers.getCreateAddress` (a keccak-based derivation) and `extractMethod`
  (an RPC lookup) are opaque to the pipeline logic, so both step functions
  take them as function parameters; `extractMethod` returns `Option String`
  because the source returns `null` on lookup failure.
- `bot.sendMessage(channelId, addr + newline + method)` is recorded as a
  trace event carrying the two lines of the message.
-/

namespace Erc20Watch

/-- A persisted registry record `{ address, method }`; `method` is `none`
where the source stores `null` (a failed selector resolution). -/
structure ContractEntry where
  address : String
  method : Option String
deriving DecidableEq, Repr

/-- One record of the external index API response
(`item.address`, `item.name`, `item.creating_transaction_hash`);
`address` is `none` when the field is missing. -/
structure ApiRecord where
  address : Option String
  name : String
  creating_transaction_hash : String
deriving DecidableEq, Repr

/-- The fields of a chain transaction the listener consumes
(`transaction.data`, `transaction.nonce`, `transaction.from`). -/
structure Transaction where
  data : String
  nonce : Nat
  sender : String
deriving DecidableEq, Repr

/-- An externally visible effect, in program order. -/
inductive Event where
  | sent (address : String) (method : String)
  | wroteJson (entries : List ContractEntry)
  | wroteTxt (lines : List String)
deriving DecidableEq, Repr

/-- The persisted files plus the effect trace. -/
structure SystemState where
  outputJSON : Option (List ContractEntry)
  outputTXT : Option (List String)
  trace : List Event
deriving DecidableEq, Repr

/-- `fs.existsSync(outputJSON) ? JSON.parse(...) : []`. -/
def readJson : Option (List ContractEntry) → List ContractEntry
  | some l => l
  | none => []

/-- JS `String.prototype.toLowerCase()` as applied to hex addresses:
lowercase every character. -/
def jsToLower (s : String) : String :=
  (s.toList.map Char.toLower).asString

/-- JS `String.prototype.slice(a, b)` for `0 ≤ a ≤ b` (as used at
`inputData.slice(0, 10)`): characters from index `a` up to `b`, clipped to
the string length. -/
def jsSlice (s : String) (a b : Nat) : String :=
  ((s.toList.drop a).take (b - a)).asString

/-- JS string interpolation of the `method` field: `null` prints as "null". -/
def methodToString : Option String → String
  | some m => m
  | none => "null"

/-- One iteration of the listener's per-transaction loop body
(`src/index.js` lines 51-88), given the allowed-method list read for the
current block and the address derivation `getCreateAddress`. -/
def processTransaction (getCreateAddress : String → Nat → String)
    (allowedMethods : List String) (tx : Transaction) (s : SystemState) :
    SystemState :=
  let inputData := tx.data
  let methodSignature := jsSlice inputData 0 10
  let contractAddress := jsToLower (getCreateAddress tx.sender tx.nonce)
  if methodSignature ∈ allowedMethods then
    -- the Telegram message is sent first (line 66), before any file access
    let s1 : SystemState :=
      { s with trace := s.trace ++ [Event.sent contractAddress methodSignature] }
    let transactionData : ContractEntry :=
      { address := contractAddress, method := some methodSignature }
    let existingData := readJson s1.outputJSON
    if existingData.any (fun d => d.address == contractAddress) then s1
    else
      let newData := transactionData :: existingData
      { s1 with outputJSON := some newData,
                trace := s1.trace ++ [Event.wroteJson newData] }
  else s

/-- The `newAddresses` array of `fetchAndSaveAddresses` (lines 102-110):
records with a truthy address and a name other than "Uniswap V2", each
mapped to a lowercased address plus the resolved method. -/
def pollNewAddresses (extractMethod : String → Option String)
    (responseData : List ApiRecord) : List ContractEntry :=
  (responseData.filter
      (fun item => item.address.getD "" != "" && item.name != "Uniswap V2")).map
    (fun item =>
      { address := jsToLower (item.address.getD ""),
        method := extractMethod item.creating_transaction_hash })

/-- The `uniqueNewAddresses` array (line 118): new records whose address is
not already in the existing JSON data. -/
def pollUnique (extractMethod : String → Option String)
    (responseData : List ApiRecord) (existingAddresses : List ContractEntry) :
    List ContractEntry :=
  (pollNewAddresses extractMethod responseData).filter
    (fun a => !existingAddresses.any (fun e => e.address == a.address))

/-- The body of `fetchAndSaveAddresses` (lines 101-148) on a well-formed
response: filter, dedup against the stored JSON, send one message per unique
new record, rewrite the JSON file with the merged array, and prepend the new
addresses to the TXT file when there are any. -/
def fetchAndSaveAddresses (extractMethod : String → Option String)
    (responseData : List ApiRecord) (s : SystemState) : SystemState :=
  let existingAddresses := readJson s.outputJSON
  let uniqueNewAddresses := pollUnique extractMethod responseData existingAddresses
  let mergedAddresses := uniqueNewAddresses ++ existingAddresses
  -- messages are dispatched (lines 124-129) before the JSON write (line 132)
  let messages := uniqueNewAddresses.map
    (fun a => Event.sent a.address (methodToString a.method))
  let s1 : SystemState := { s with trace := s.trace ++ messages }
  let s2 : SystemState :=
    { s1 with outputJSON := some mergedAddresses,
              trace := s1.trace ++ [Event.wroteJson mergedAddresses] }
  if uniqueNewAddresses.length > 0 then
    let addressesToWrite := uniqueNewAddresses.map (·.address)
    match s2.outputTXT with
    | some existingTxtContent =>
        let newTxtContent := addressesToWrite ++ existingTxtContent
        { s2 with outputTXT := some newTxtContent,
                  trace := s2.trace ++ [Event.wroteTxt newTxtContent] }
    | none =>
        { s2 with outputTXT := some addressesToWrite,
                  trace := s2.trace ++ [Event.wroteTxt addressesToWrite] }
  else s2

/-- The address column of the structured view. -/
def jsonAddrs (s : SystemState) : List String :=
  (readJson s.outputJSON).map (·.address)

/-- The address lines of the plain TXT view (empty when the file is absent). -/
def txtAddrs (s : SystemState) : List String :=
  s.outputTXT.getD []

/-- The Telegram messages of a trace, in send order, as (line1, line2). -/
def sentList (tr : List Event) : List (String × String) :=
  tr.filterMap (fun e =>
    match e with
    | Event.sent a m => some (a, m)
    | _ => none)

/-- Whether an event is a Telegram send. -/
def isSent : Event → Bool
  | Event.sent _ _ => true
  | _ => false

/-- The claim of notification-after-persistence, over a trace: every send
of an address is preceded by a JSON write that already contains it. -/
def notifyOnlyAfterPersistB (tr : List Event) : Bool :=
  (List.range tr.length).all (fun i =>
    match tr.get? i with
    | some (Event.sent a _) =>
        (tr.take i).any (fun e =>
          match e with
          | Event.wroteJson l => l.any (fun d => d.address == a)
          | _ => false)
    | _ => true)

/-- The state before any file exists. -/
def initState : SystemState := ⟨none, none, []⟩

/-! ### Characterization lemmas for the listener step -/

theorem processTransaction_not_allowed (dA : String → Nat → String)
    (allowed : List String) (tx : Transaction) (s : SystemState)
    (h : jsSlice tx.data 0 10 ∉ allowed) :
    processTransaction dA allowed tx s = s := by
  simp only [processTransaction, if_neg h]

theorem processTransaction_dup (dA : String → Nat → String)
    (allowed : List String) (tx : Transaction) (s : SystemState)
    (h : jsSlice tx.data 0 10 ∈ allowed)
    (hdup : (readJson s.outputJSON).any
      (fun d => d.address == jsToLower (dA tx.sender tx.nonce)) = true) :
    processTransaction dA allowed tx s =
      { s with trace := s.trace ++
          [Event.sent (jsToLower (dA tx.sender tx.nonce)) (jsSlice tx.data 0 10)] } := by
  simp only [processTransaction, if_pos h, hdup, if_pos]

theorem processTransaction_fresh (dA : String → Nat → String)
    (allowed : List String) (tx : Transaction) (s : SystemState)
    (h : jsSlice tx.data 0 10 ∈ allowed)
    (hfresh : (readJson s.outputJSON).any
      (fun d => d.address == jsToLower (dA tx.sender tx.nonce)) = false) :
    processTransaction dA allowed tx s =
      { s with
        outputJSON := some
          ({ address := jsToLower (dA tx.sender tx.nonce),
             method := some (jsSlice tx.data 0 10) } :: readJson s.outputJSON),
        trace := s.trace ++
          [Event.sent (jsToLower (dA tx.sender tx.nonce)) (jsSlice tx.data 0 10),
           Event.wroteJson
             ({ address := jsToLower (dA tx.sender tx.nonce),
                method := some (jsSlice tx.data 0 10) } :: readJson s.outputJSON)] } := by
  simp only [processTransaction, if_pos h, hfresh]
  simp

/-! ### Characterization lemmas for the poller step -/

theorem fetchAndSaveAddresses_outputJSON (em : String → Option String)
    (resp : List ApiRecord) (s : SystemState) :
    (fetchAndSaveAddresses em resp s).outputJSON =
      some (pollUnique em resp (readJson s.outputJSON) ++ readJson s.outputJSON) := by
  simp only [fetchAndSaveAddresses]
  split
  · split <;> rfl
  · rfl

theorem fetchAndSaveAddresses_outputTXT_nil (em : String → Option String)
    (resp : List ApiRecord) (s : SystemState)
    (h : pollUnique em resp (readJson s.outputJSON) = []) :
    (fetchAndSaveAddresses em resp s).outputTXT = s.outputTXT := by
  simp only [fetchAndSaveAddresses, h]
  rfl

theorem fetchAndSaveAddresses_outputTXT_pos (em : String → Option String)
    (resp : List ApiRecord) (s : SystemState)
    (h : pollUnique em resp (readJson s.outputJSON) ≠ []) :
    (fetchAndSaveAddresses em resp s).outputTXT =
      some ((pollUnique em resp (readJson s.outputJSON)).map (·.address) ++
        s.outputTXT.getD []) := by
  simp only [fetchAndSaveAddresses]
  rw [if_pos (by simpa [List.length_pos] using h)]
  cases htxt : s.outputTXT <;> simp [htxt]

theorem fetchAndSaveAddresses_trace (em : String → Option String)
    (resp : List ApiRecord) (s : SystemState) :
    ∃ w : List Event,
      (fetchAndSaveAddresses em resp s).trace =
        s.trace ++
          (pollUnique em resp (readJson s.outputJSON)).map
            (fun a => Event.sent a.address (methodToString a.method)) ++ w ∧
      ∀ e ∈ w, isSent e = false := by
  simp only [fetchAndSaveAddresses]
  split
  · split
    · rename_i existingTxt heq
      exact ⟨[Event.wroteJson
                (pollUnique em resp (readJson s.outputJSON) ++ readJson s.outputJSON),
              Event.wroteTxt
                ((pollUnique em resp (readJson s.outputJSON)).map (·.address) ++
                  existingTxt)],
             by simp, by simp [isSent]⟩
    · exact ⟨[Event.wroteJson
                (pollUnique em resp (readJson s.outputJSON) ++ readJson s.outputJSON),
              Event.wroteTxt
                ((pollUnique em resp (readJson s.outputJSON)).map (·.address))],
             by simp, by simp [isSent]⟩
  · exact ⟨[Event.wroteJson
              (pollUnique em resp (readJson s.outputJSON) ++ readJson s.outputJSON)],
           by simp, by simp [isSent]⟩

theorem processTransaction_outputTXT (dA : String → Nat → String)
    (allowed : List String) (tx : Transaction) (s : SystemState) :
    (processTransaction dA allowed tx s).outputTXT = s.outputTXT := by
  simp only [processTransaction]
  split
  · split <;> rfl
  · rfl

theorem sentList_append (l₁ l₂ : List Event) :
    sentList (l₁ ++ l₂) = sentList l₁ ++ sentList l₂ := by
  simp [sentList]

theorem sentList_nonSent (w : List Event) (h : ∀ e ∈ w, isSent e = false) :
    sentList w = [] := by
  rw [sentList, List.filterMap_eq_nil_iff]
  intro e he
  have := h e he
  cases e <;> simp_all [isSent]

theorem sentList_sendEvents (l : List ContractEntry) :
    sentList (l.map (fun a => Event.sent a.address (methodToString a.method))) =
      l.map (fun a => (a.address, methodToString a.method)) := by
  induction l with
  | nil => rfl
  | cons a l ih =>
      simp [sentList, List.filterMap_cons] at ih ⊢
      exact ih

/-- No record of the response survives the uniqueness filter against a
registry that already holds everything a first poller run admitted. -/
theorem pollUnique_append_self (em : String → Option String)
    (resp : List ApiRecord) (existing : List ContractEntry) :
    pollUnique em resp (pollUnique em resp existing ++ existing) = [] := by
  rw [pollUnique, List.filter_eq_nil_iff]
  intro a ha
  simp only [Bool.not_eq_true', Bool.not_eq_false]
  by_cases hex : existing.any (fun e => e.address == a.address) = true
  · simp [List.any_append, hex]
  · have hmem : a ∈ pollUnique em resp existing :=
      List.mem_filter.mpr ⟨ha, by simp [Bool.not_eq_true] at hex ⊢; exact hex⟩
    have : (pollUnique em resp existing).any (fun e => e.address == a.address) = true :=
      List.any_eq_true.mpr ⟨a, hmem, by simp⟩
    simp [List.any_append, this]

/-- Claim C7: re-running the poller on a response identical to the first
run, starting from the state the first run left, admits nothing, sends no
message, and leaves both persisted views with the content the first run
wrote. -/
theorem C7_poller_rerun_idempotent (em : String → Option String)
    (resp : List ApiRecord) (s : SystemState) :
    (fetchAndSaveAddresses em resp (fetchAndSaveAddresses em resp s)).outputJSON =
      (fetchAndSaveAddresses em resp s).outputJSON ∧
    (fetchAndSaveAddresses em resp (fetchAndSaveAddresses em resp s)).outputTXT =
      (fetchAndSaveAddresses em resp s).outputTXT ∧
    sentList (fetchAndSaveAddresses em resp (fetchAndSaveAddresses em resp s)).trace =
      sentList (fetchAndSaveAddresses em resp s).trace := by
  have hread : readJson (fetchAndSaveAddresses em resp s).outputJSON =
      pollUnique em resp (readJson s.outputJSON) ++ readJson s.outputJSON := by
    rw [fetchAndSaveAddresses_outputJSON]
    rfl
  have hnil : pollUnique em resp
      (readJson (fetchAndSaveAddresses em resp s).outputJSON) = [] := by
    rw [hread]
    exact pollUnique_append_self em resp (readJson s.outputJSON)
  refine ⟨?_, ?_, ?_⟩
  · rw [fetchAndSaveAddresses_outputJSON em resp (fetchAndSaveAddresses em resp s),
      hnil, List.nil_append, hread, fetchAndSaveAddresses_outputJSON]
  · exact fetchAndSaveAddresses_outputTXT_nil em resp _ hnil
  · obtain ⟨w, hw, hns⟩ :=
      fetchAndSaveAddresses_trace em resp (fetchAndSaveAddresses em resp s)
    rw [hw, hnil]
    simp only [List.map_nil, List.append_nil]
    rw [sentList_append, sentList_nonSent w hns, List.append_nil]

/-- Claim C8: both operations only prepend to the structured registry: the
previous entries survive unchanged as a suffix; the listener never touches
the TXT mirror, and the poller only prepends address lines to it. -/
theorem C8_registry_append_only (dA : String → Nat → String)
    (allowed : List String) (tx : Transaction) (em : String → Option String)
    (resp : List ApiRecord) (s : SystemState) :
    (∃ p, readJson (processTransaction dA allowed tx s).outputJSON =
        p ++ readJson s.outputJSON) ∧
    (processTransaction dA allowed tx s).outputTXT = s.outputTXT ∧
    (∃ q, readJson (fetchAndSaveAddresses em resp s).outputJSON =
        q ++ readJson s.outputJSON) ∧
    (∃ r, txtAddrs (fetchAndSaveAddresses em resp s) = r ++ txtAddrs s) := by
  refine ⟨?_, processTransaction_outputTXT dA allowed tx s, ?_, ?_⟩
  · by_cases hin : jsSlice tx.data 0 10 ∈ allowed
    · by_cases hdup : (readJson s.outputJSON).any
        (fun d => d.address == jsToLower (dA tx.sender tx.nonce)) = true
      · exact ⟨[], by rw [processTransaction_dup dA allowed tx s hin hdup]; rfl⟩
      · refine ⟨[{ address := jsToLower (dA tx.sender tx.nonce),
                   method := some (jsSlice tx.data 0 10) }], ?_⟩
        rw [processTransaction_fresh dA allowed tx s hin
          (Bool.not_eq_true _ ▸ hdup)]
        rfl
    · exact ⟨[], by rw [processTransaction_not_allowed dA allowed tx s hin]; rfl⟩
  · exact ⟨pollUnique em resp (readJson s.outputJSON), by
      rw [fetchAndSaveAddresses_outputJSON]; rfl⟩
  · by_cases hnil : pollUnique em resp (readJson s.outputJSON) = []
    · exact ⟨[], by
        rw [txtAddrs, fetchAndSaveAddresses_outputTXT_nil em resp s hnil]; rfl⟩
    · exact ⟨(pollUnique em resp (readJson s.outputJSON)).map (·.address), by
        rw [txtAddrs, fetchAndSaveAddresses_outputTXT_pos em resp s hnil]; rfl⟩

/-- Claim C9: when the transaction's input data is shorter than 10
characters ('0x' plus 8 hex digits), `inputData.slice(0, 10)` returns the
whole short string without error, which cannot equal any full 4-byte
selector of the allowed list, so the transaction is dropped and the state is
untouched. -/
theorem C9_short_input_never_matches (dA : String → Nat → String)
    (allowed : List String) (tx : Transaction) (s : SystemState)
    (hall : ∀ m ∈ allowed, m.length = 10) (hshort : tx.data.length < 10) :
    jsSlice tx.data 0 10 ∉ allowed ∧ processTransaction dA allowed tx s = s := by
  have hlen : (jsSlice tx.data 0 10).length = tx.data.length := by
    show ((tx.data.toList.drop 0).take (10 - 0)).asString.length = tx.data.length
    rw [List.length_asString, List.drop_zero, List.length_take]
    have : tx.data.toList.length = tx.data.length := rfl
    omega
  have hnot : jsSlice tx.data 0 10 ∉ allowed := by
    intro hmem
    have h10 := hall _ hmem
    omega
  exact ⟨hnot, processTransaction_not_allowed dA allowed tx s hnot⟩

theorem C9_short_input_never_matches_witness :
    jsSlice "0x1234" 0 10 ∉ ["0x12345678"] ∧
    processTransaction (fun _ _ => "0xC0FFEE") ["0x12345678"]
      ⟨"0x1234", 3, "0xAB"⟩ initState = initState :=
  C9_short_input_never_matches (fun _ _ => "0xC0FFEE") ["0x12345678"]
    ⟨"0x1234", 3, "0xAB"⟩ initState (by decide) (by decide)

/-- Claim C10: when the structured registry file does not exist, both paths
read it as the empty list (no error), every candidate address is considered
absent, and a successful admission creates the file: the listener writes a
one-entry file, and the poller always writes the JSON file on a
well-formed response. -/
theorem C10_missing_file_empty_registry (dA : String → Nat → String)
    (allowed : List String) (tx : Transaction) (em : String → Option String)
    (resp : List ApiRecord) (s : SystemState) (h : s.outputJSON = none) :
    readJson s.outputJSON = [] ∧
    (jsSlice tx.data 0 10 ∈ allowed →
      (processTransaction dA allowed tx s).outputJSON =
        some [{ address := jsToLower (dA tx.sender tx.nonce),
                method := some (jsSlice tx.data 0 10) }]) ∧
    ((fetchAndSaveAddresses em resp s).outputJSON).isSome = true := by
  have hr : readJson s.outputJSON = [] := by rw [h]; rfl
  refine ⟨hr, fun hin => ?_, ?_⟩
  · have hfresh : (readJson s.outputJSON).any
        (fun d => d.address == jsToLower (dA tx.sender tx.nonce)) = false := by
      rw [hr]; rfl
    rw [processTransaction_fresh dA allowed tx s hin hfresh, hr]
  · rw [fetchAndSaveAddresses_outputJSON]
    rfl

theorem C10_missing_file_empty_registry_witness :
    readJson initState.outputJSON = [] ∧
    (processTransaction (fun _ _ => "0xC0FFEE") ["0x12345678"]
        ⟨"0x12345678aa", 3, "0xAB"⟩ initState).outputJSON =
      some [{ address := jsToLower "0xC0FFEE", method := some "0x12345678" }] ∧
    ((fetchAndSaveAddresses (fun _ => some "0xdeadbeef")
        [⟨some "0xAA", "T", "0xh"⟩] initState).outputJSON).isSome = true := by
  have t := C10_missing_file_empty_registry (fun _ _ => "0xC0FFEE") ["0x12345678"]
    ⟨"0x12345678aa", 3, "0xAB"⟩ (fun _ => some "0xdeadbeef")
    [⟨some "0xAA", "T", "0xh"⟩] initState rfl
  refine ⟨t.1, ?_, t.2.2⟩
  have h2 := t.2.1 (by decide)
  rw [h2]
  decide

/-- An address absent from the `any`-scan of the registry is absent from the
address column. -/
theorem not_mem_jsonAddrs_of_any_false (l : List ContractEntry) (a : String)
    (h : l.any (fun d => d.address == a) = false) : a ∉ l.map (·.address) := by
  intro hmem
  obtain ⟨d, hd, hda⟩ := List.mem_map.mp hmem
  have : l.any (fun d => d.address == a) = true :=
    List.any_eq_true.mpr ⟨d, hd, by simp [hda]⟩
  simp [this] at h

/-- Claim C1 (counterexample): a single poll response carrying the same
address twice is admitted twice, so the persisted structured list holds that
address twice after one poller run from the empty state. -/
theorem C1_unique_address_counterexample :
    jsonAddrs (fetchAndSaveAddresses (fun _ => some "0xdeadbeef")
      [⟨some "0xAA", "T", "0xh"⟩, ⟨some "0xAA", "T", "0xh"⟩] initState) =
      ["0xaa", "0xaa"] := by
  decide

/-- Claim C1 (amended): the registry never acquires a duplicate address
through the listener, and never through a poller run whose response batch
itself carries pairwise-distinct normalized addresses; only duplicates
inside one poll response slip through. -/
theorem C1_unique_address_amended (dA : String → Nat → String)
    (allowed : List String) (tx : Transaction) (em : String → Option String)
    (resp : List ApiRecord) (s : SystemState)
    (hs : (jsonAddrs s).Nodup) :
    (jsonAddrs (processTransaction dA allowed tx s)).Nodup ∧
    (((pollNewAddresses em resp).map (·.address)).Nodup →
      (jsonAddrs (fetchAndSaveAddresses em resp s)).Nodup) := by
  constructor
  · by_cases hin : jsSlice tx.data 0 10 ∈ allowed
    · by_cases hdup : (readJson s.outputJSON).any
        (fun d => d.address == jsToLower (dA tx.sender tx.nonce)) = true
      · rw [processTransaction_dup dA allowed tx s hin hdup]
        exact hs
      · have hfresh := Bool.not_eq_true _ ▸ hdup
        rw [processTransaction_fresh dA allowed tx s hin hfresh]
        refine List.nodup_cons.mpr ⟨?_, hs⟩
        exact not_mem_jsonAddrs_of_any_false _ _ hfresh
    · rw [processTransaction_not_allowed dA allowed tx s hin]
      exact hs
  · intro hresp
    have hj : jsonAddrs (fetchAndSaveAddresses em resp s) =
        (pollUnique em resp (readJson s.outputJSON)).map (·.address) ++
          jsonAddrs s := by
      rw [jsonAddrs, fetchAndSaveAddresses_outputJSON]
      simp [jsonAddrs, readJson]
    rw [hj]
    refine List.Nodup.append ?_ hs ?_
    · have hsub : List.Sublist (pollUnique em resp (readJson s.outputJSON))
          (pollNewAddresses em resp) := List.filter_sublist _
      exact List.Nodup.sublist (hsub.map (·.address)) hresp
    · intro a ha hmem
      obtain ⟨d, hd, hda⟩ := List.mem_map.mp ha
      have hpred := (List.mem_filter.mp hd).2
      simp only [Bool.not_eq_true'] at hpred
      exact not_mem_jsonAddrs_of_any_false _ _ hpred (hda ▸ hmem)

theorem C1_unique_address_amended_witness :
    (jsonAddrs (processTransaction (fun _ _ => "0xC0FFEE") ["0x12345678"]
      ⟨"0x12345678aa", 3, "0xAB"⟩ initState)).Nodup ∧
    (jsonAddrs (fetchAndSaveAddresses (fun _ => some "0xdeadbeef")
      [⟨some "0xAA", "T", "0xh"⟩] initState)).Nodup := by
  have t := C1_unique_address_amended (fun _ _ => "0xC0FFEE") ["0x12345678"]
    ⟨"0x12345678aa", 3, "0xAB"⟩ (fun _ => some "0xdeadbeef")
    [⟨some "0xAA", "T", "0xh"⟩] initState (by decide)
  exact ⟨t.1, t.2 (by decide)⟩

/-- Claim C2 (counterexample): a listener admission from the empty state
puts the address in the structured list but never touches the TXT mirror,
so the two views disagree on membership. -/
theorem C2_views_agree_counterexample :
    "0xc0ffee" ∈ jsonAddrs (processTransaction (fun _ _ => "0xC0FFEE")
      ["0x12345678"] ⟨"0x12345678aa", 3, "0xAB"⟩ initState) ∧
    "0xc0ffee" ∉ txtAddrs (processTransaction (fun _ _ => "0xC0FFEE")
      ["0x12345678"] ⟨"0x12345678aa", 3, "0xAB"⟩ initState) := by
  decide

/-- Claim C2 (amended): only the poller maintains the TXT mirror: a poller
admission preserves agreement of the two views' membership, while a
listener admission updates the structured list only and leaves the TXT
mirror untouched. -/
theorem C2_views_agree_amended (dA : String → Nat → String)
    (allowed : List String) (tx : Transaction) (em : String → Option String)
    (resp : List ApiRecord) (s : SystemState)
    (hagree : ∀ x, x ∈ jsonAddrs s ↔ x ∈ txtAddrs s) :
    (processTransaction dA allowed tx s).outputTXT = s.outputTXT ∧
    ∀ x, x ∈ jsonAddrs (fetchAndSaveAddresses em resp s) ↔
      x ∈ txtAddrs (fetchAndSaveAddresses em resp s) := by
  refine ⟨processTransaction_outputTXT dA allowed tx s, fun x => ?_⟩
  have hj : jsonAddrs (fetchAndSaveAddresses em resp s) =
      (pollUnique em resp (readJson s.outputJSON)).map (·.address) ++
        jsonAddrs s := by
    rw [jsonAddrs, fetchAndSaveAddresses_outputJSON]
    simp [jsonAddrs, readJson]
  by_cases hnil : pollUnique em resp (readJson s.outputJSON) = []
  · rw [hj, hnil, txtAddrs, fetchAndSaveAddresses_outputTXT_nil em resp s hnil]
    simpa using hagree x
  · rw [hj, txtAddrs, fetchAndSaveAddresses_outputTXT_pos em resp s hnil]
    simp only [Option.getD_some, List.mem_append]
    rw [← txtAddrs]
    exact or_congr Iff.rfl (hagree x)

theorem C2_views_agree_amended_witness :
    (processTransaction (fun _ _ => "0xC0FFEE") ["0x12345678"]
      ⟨"0x12345678aa", 3, "0xAB"⟩ initState).outputTXT = initState.outputTXT ∧
    ("0xaa" ∈ jsonAddrs (fetchAndSaveAddresses (fun _ => some "0xdeadbeef")
        [⟨some "0xAA", "T", "0xh"⟩] initState) ↔
      "0xaa" ∈ txtAddrs (fetchAndSaveAddresses (fun _ => some "0xdeadbeef")
        [⟨some "0xAA", "T", "0xh"⟩] initState)) := by
  have t := C2_views_agree_amended (fun _ _ => "0xC0FFEE") ["0x12345678"]
    ⟨"0x12345678aa", 3, "0xAB"⟩ (fun _ => some "0xdeadbeef")
    [⟨some "0xAA", "T", "0xh"⟩] initState (fun _ => Iff.rfl)
  exact ⟨t.1, t.2 "0xaa"⟩

/-- Claim C3 (counterexample): in the very first listener admission the
Telegram send is the first trace event, before any registry write, so a
notification exists for an entry that was not yet persisted. -/
theorem C3_notify_after_persist_counterexample :
    notifyOnlyAfterPersistB (processTransaction (fun _ _ => "0xC0FFEE")
      ["0x12345678"] ⟨"0x12345678aa", 3, "0xAB"⟩ initState).trace = false := by
  decide

/-- Claim C3 (amended): on both ingestion paths the Notifier is invoked
before the registry write of the same processing step, never after: the
events a step appends to the trace are all its sends followed by all its
file writes. -/
theorem C3_notify_before_write_amended (dA : String → Nat → String)
    (allowed : List String) (tx : Transaction) (em : String → Option String)
    (resp : List ApiRecord) (s : SystemState) :
    (∃ a b, (processTransaction dA allowed tx s).trace.drop s.trace.length =
        a ++ b ∧ (∀ e ∈ a, isSent e = true) ∧ (∀ e ∈ b, isSent e = false)) ∧
    (∃ a b, (fetchAndSaveAddresses em resp s).trace.drop s.trace.length =
        a ++ b ∧ (∀ e ∈ a, isSent e = true) ∧ (∀ e ∈ b, isSent e = false)) := by
  constructor
  · by_cases hin : jsSlice tx.data 0 10 ∈ allowed
    · by_cases hdup : (readJson s.outputJSON).any
        (fun d => d.address == jsToLower (dA tx.sender tx.nonce)) = true
      · refine ⟨[Event.sent (jsToLower (dA tx.sender tx.nonce))
            (jsSlice tx.data 0 10)], [], ?_, ?_, ?_⟩
        · rw [processTransaction_dup dA allowed tx s hin hdup]
          simp [List.drop_left]
        · simp [isSent]
        · simp
      · have hfresh := Bool.not_eq_true _ ▸ hdup
        refine ⟨[Event.sent (jsToLower (dA tx.sender tx.nonce))
            (jsSlice tx.data 0 10)],
          [Event.wroteJson
            ({ address := jsToLower (dA tx.sender tx.nonce),
               method := some (jsSlice tx.data 0 10) } :: readJson s.outputJSON)],
          ?_, ?_, ?_⟩
        · rw [processTransaction_fresh dA allowed tx s hin hfresh]
          simp [List.drop_left]
        · simp [isSent]
        · simp [isSent]
    · refine ⟨[], [], ?_, ?_, ?_⟩
      · rw [processTransaction_not_allowed dA allowed tx s hin]
        simp [List.drop_length]
      · simp
      · simp
  · obtain ⟨w, hw, hns⟩ := fetchAndSaveAddresses_trace em resp s
    refine ⟨(pollUnique em resp (readJson s.outputJSON)).map
        (fun a => Event.sent a.address (methodToString a.method)), w, ?_, ?_, hns⟩
    · rw [hw, List.append_assoc, List.drop_left]
    · intro e he
      obtain ⟨a, _, rfl⟩ := List.mem_map.mp he
      rfl

/-- Claim C4 (counterexample): a listener candidate whose address is
already in the registry is not admitted — the structured list is left as it
was — yet exactly one notification is still sent for it. -/
theorem C4_one_notification_counterexample :
    sentList (processTransaction (fun _ _ => "0xC0FFEE") ["0x12345678"]
      ⟨"0x12345678aa", 3, "0xAB"⟩
      ⟨some [{ address := "0xc0ffee", method := some "0x12345678" }],
       none, []⟩).trace = [("0xc0ffee", "0x12345678")] ∧
    (processTransaction (fun _ _ => "0xC0FFEE") ["0x12345678"]
      ⟨"0x12345678aa", 3, "0xAB"⟩
      ⟨some [{ address := "0xc0ffee", method := some "0x12345678" }],
       none, []⟩).outputJSON =
      some [{ address := "0xc0ffee", method := some "0x12345678" }] := by
  decide

/-- Claim C4 (amended): the poller sends exactly one message per newly
admitted entry (the entries it prepends to the registry) and none for
records it does not admit, while the listener sends exactly one message per
selector-matching transaction whether or not the candidate is admitted. -/
theorem C4_notifications_amended (dA : String → Nat → String)
    (allowed : List String) (tx : Transaction) (em : String → Option String)
    (resp : List ApiRecord) (s : SystemState) :
    sentList (fetchAndSaveAddresses em resp s).trace =
      sentList s.trace ++
        (pollUnique em resp (readJson s.outputJSON)).map
          (fun a => (a.address, methodToString a.method)) ∧
    readJson (fetchAndSaveAddresses em resp s).outputJSON =
      pollUnique em resp (readJson s.outputJSON) ++ readJson s.outputJSON ∧
    sentList (processTransaction dA allowed tx s).trace =
      sentList s.trace ++
        (if jsSlice tx.data 0 10 ∈ allowed then
          [(jsToLower (dA tx.sender tx.nonce), jsSlice tx.data 0 10)]
         else []) := by
  refine ⟨?_, ?_, ?_⟩
  · obtain ⟨w, hw, hns⟩ := fetchAndSaveAddresses_trace em resp s
    rw [hw, sentList_append, sentList_append, sentList_sendEvents,
      sentList_nonSent w hns, List.append_nil]
  · rw [fetchAndSaveAddresses_outputJSON]
    rfl
  · by_cases hin : jsSlice tx.data 0 10 ∈ allowed
    · rw [if_pos hin]
      by_cases hdup : (readJson s.outputJSON).any
          (fun d => d.address == jsToLower (dA tx.sender tx.nonce)) = true
      · rw [processTransaction_dup dA allowed tx s hin hdup]
        simp [sentList_append, sentList]
      · rw [processTransaction_fresh dA allowed tx s hin
          (Bool.not_eq_true _ ▸ hdup)]
        simp [sentList_append, sentList]
    · rw [if_neg hin, processTransaction_not_allowed dA allowed tx s hin]
      simp

/-- Claim C5 (counterexample): the poller admits a record whose resolved
selector is not in the allowed-method list: with allowed list
["0x11112222"] a record resolving to "0xdeadbeef" is still persisted. -/
theorem C5_poller_unfiltered_counterexample :
    ("0xdeadbeef" ∈ ["0x11112222"] → False) ∧
    readJson (fetchAndSaveAddresses (fun _ => some "0xdeadbeef")
      [⟨some "0xAA", "T", "0xh"⟩] initState).outputJSON =
      [{ address := "0xaa", method := some "0xdeadbeef" }] := by
  decide

/-- Claim C5 (amended): only the Chain Listener filters by selector — a
listener candidate whose selector is not in the allowed list is never
admitted and changes nothing — while the poller's admitted addresses do not
depend on the resolved selectors at all. -/
theorem C5_selector_filter_amended (dA : String → Nat → String)
    (allowed : List String) (tx : Transaction)
    (em em' : String → Option String) (resp : List ApiRecord)
    (s : SystemState) (h : jsSlice tx.data 0 10 ∉ allowed) :
    processTransaction dA allowed tx s = s ∧
    jsonAddrs (fetchAndSaveAddresses em resp s) =
      jsonAddrs (fetchAndSaveAddresses em' resp s) := by
  refine ⟨processTransaction_not_allowed dA allowed tx s h, ?_⟩
  have key : ∀ em₀ : String → Option String,
      jsonAddrs (fetchAndSaveAddresses em₀ resp s) =
        ((resp.filter
            (fun item => item.address.getD "" != "" &&
              item.name != "Uniswap V2")).map
          (fun item => jsToLower (item.address.getD ""))).filter
            (fun a => !(readJson s.outputJSON).any (fun e => e.address == a)) ++
          jsonAddrs s := by
    intro em₀
    rw [jsonAddrs, fetchAndSaveAddresses_outputJSON]
    show (pollUnique em₀ resp (readJson s.outputJSON) ++
        readJson s.outputJSON).map (·.address) = _
    rw [List.map_append, pollUnique, pollNewAddresses, List.filter_map,
      List.map_map, ← jsonAddrs, List.filter_map]
    rfl
  rw [key em, key em']

theorem C5_selector_filter_amended_witness :
    processTransaction (fun _ _ => "0xC0FFEE") ["0x12345678"]
      ⟨"0xdeadbeef00", 3, "0xAB"⟩ initState = initState ∧
    jsonAddrs (fetchAndSaveAddresses (fun _ => some "0xdeadbeef")
        [⟨some "0xAA", "T", "0xh"⟩] initState) =
      jsonAddrs (fetchAndSaveAddresses (fun _ => none)
        [⟨some "0xAA", "T", "0xh"⟩] initState) :=
  C5_selector_filter_amended (fun _ _ => "0xC0FFEE") ["0x12345678"]
    ⟨"0xdeadbeef00", 3, "0xAB"⟩ (fun _ => some "0xdeadbeef") (fun _ => none)
    [⟨some "0xAA", "T", "0xh"⟩] initState (by decide)

end Erc20Watch
